import Mathlib

/-!
Verification of the overdraft-linked EMI loan ledger
(`src/ledger_copilot.py`, entry points in `src/ledger_api.py`).

Modelling conventions:
* Python floats are modelled as exact rationals (`ℚ`); the spec and the
  claims reason about the real-number formulas, not about binary
  floating point.
* `round(x, 2)` is Python's banker's rounding (round half to even),
  modelled exactly on `ℚ` by `roundHalfEven`/`round2`.
* `datetime` values produced by `strptime` with format `%d-%m-%y` are
  calendar dates; they are modelled as proleptic Gregorian dates with
  `Date.toOrdinal` mirroring `datetime.date.toordinal` (so subtraction
  of ordinals is `(d1 - d2).days`), and `Date.addMonths` mirroring
  `dateutil.relativedelta(months=k)` (month arithmetic with the day of
  month clamped to the length of the target month).
* The interactive branch `get_additional_events` is modelled in the
  UI/test mode used by `ledger_api.simulate_ledger` (`ui_mode=True`),
  where it prints and returns without adding events; the in-loop
  re-sort `self.events.sort(...)` of the already sorted event list is a
  no-op for a stable sort and is therefore not repeated in the model.
* The console notifications of `process` (loan closed, adjusted
  principal reached zero) are recorded as lists of dates in the state,
  mirroring exactly the conditions under which the prints fire.
* `entry_log`, `display` and `export_csv` are presentation-only and are
  not modelled; the `Date` field of a row keeps the date value rather
  than its `%d-%m-%Y` string rendering (the rendering is injective on
  valid dates).
-/

set_option allowUnsafeReducibility true in
attribute [semireducible] Rat.add Rat.mul Rat.inv Rat.div Rat.sub Rat.neg

deriving instance DecidableEq for Except

/-- Python's `round` to an integer: round half to even. -/
def roundHalfEven (x : ℚ) : ℤ :=
  if x - ⌊x⌋ < 1/2 then ⌊x⌋
  else if 1/2 < x - ⌊x⌋ then ⌊x⌋ + 1
  else if ⌊x⌋ % 2 = 0 then ⌊x⌋ else ⌊x⌋ + 1

/-- Python's `round(x, 2)`: round to two decimal places, half to even. -/
def round2 (x : ℚ) : ℚ :=
  ((roundHalfEven (x * 100) : ℤ) : ℚ) / 100

/-- Python's `int(x)` on a rational: truncation toward zero. -/
def pyInt (x : ℚ) : ℤ :=
  if 0 ≤ x then ⌊x⌋ else ⌈x⌉

/-- A proleptic Gregorian calendar date, as held by a Python
`datetime` produced from format `%d-%m-%y` (time fields all zero). -/
structure Date where
  year : ℕ
  month : ℕ
  day : ℕ
deriving DecidableEq

/-- Gregorian leap-year test. -/
def isLeap (y : ℕ) : Bool :=
  y % 4 == 0 && (y % 100 != 0 || y % 400 == 0)

/-- Number of days in month `m` of year `y`. -/
def daysInMonth (y m : ℕ) : ℕ :=
  if m = 2 then (if isLeap y then 29 else 28)
  else if m = 4 ∨ m = 6 ∨ m = 9 ∨ m = 11 then 30
  else 31

/-- Days in year `y` strictly before month `m`. -/
def daysBeforeMonth (y m : ℕ) : ℕ :=
  ((List.range (m - 1)).map (fun i => daysInMonth y (i + 1))).sum

/-- `datetime.date.toordinal`: day number with 0001-01-01 ↦ 1.
Differences of ordinals are `timedelta.days`. -/
def Date.toOrdinal (d : Date) : ℤ :=
  365 * ((d.year : ℤ) - 1) + ((d.year - 1) / 4 : ℕ) - ((d.year - 1) / 100 : ℕ)
    + ((d.year - 1) / 400 : ℕ) + (daysBeforeMonth d.year d.month : ℕ) + (d.day : ℤ)

/-- `dateutil.relativedelta(months = k)` added to a date: shift the
month, carrying into the year, and clamp the day of month to the
length of the target month. -/
def Date.addMonths (d : Date) (k : ℕ) : Date :=
  let t := d.year * 12 + (d.month - 1) + k
  { year := t / 12, month := t % 12 + 1,
    day := min d.day (daysInMonth (t / 12) (t % 12 + 1)) }

/-- `LedgerEvent` of `ledger_copilot.py`: a dated, typed amount.  The
`type` is the string tag used by the source (`"Start"`, `"EMI"`,
`"Deposit"`, `"Withdraw"`, `"Pre-Pay"`); as in the source, dispatch is
by string comparison and unknown tags fall through every branch. -/
structure LedgerEvent where
  date : Date
  type : String
  amount : ℚ
deriving DecidableEq

/-- One emitted ledger row, mirroring the dict built by
`OverdraftLedger.entry` (all monetary fields already rounded). -/
structure LedgerRow where
  date : Date
  type : String
  amount : ℚ
  principal : ℚ
  interest : ℚ
  outstanding : ℚ
  deposit_balance : ℚ
  adjusted : ℚ
deriving DecidableEq

/-- The mutable state of one `process` run: the `self` fields touched
by the simulation plus the local `accrued_interest`, `prev_date` and
`prev_adjusted` of the loop, the emitted rows, and the recorded
notification prints. -/
structure ProcState where
  outstanding : ℚ
  deposit_balance : ℚ
  accrued_interest : ℚ
  loan_closure_flag : Bool
  prev_date : Date
  prev_adjusted : ℚ
  ledger : List LedgerRow
  closure_notices : List Date
  adjusted_zero_notices : List Date
deriving DecidableEq

/-- `OverdraftLedger.entry`: build a row from the current state (the
state as it stands after the event has been applied), rounding every
monetary field to two decimals. -/
def mkEntry (st : ProcState) (date : Date) (type_ : String)
    (amount principal interest : ℚ) : LedgerRow :=
  let adjusted := max (st.outstanding - st.deposit_balance) 0
  { date := date, type := type_, amount := round2 amount,
    principal := round2 principal, interest := round2 interest,
    outstanding := round2 st.outstanding,
    deposit_balance := round2 st.deposit_balance,
    adjusted := round2 adjusted }

/-- Lines 110–113 of `process`: the daily-interest accrual for the gap
between the previous event date and the current event date,
`adjusted * rate_day * days`, added to `accrued_interest`. -/
def accrue (rate_day : ℚ) (st : ProcState) (d : Date) : ProcState :=
  { st with accrued_interest :=
      st.accrued_interest
        + max (st.outstanding - st.deposit_balance) 0 * rate_day
            * ((d.toOrdinal - st.prev_date.toOrdinal : ℤ) : ℚ) }

/-- Lines 115–119 of `process`: the adjusted-principal-zero console
notification, recorded as a date.  In UI/test mode this branch only
prints (`get_additional_events` returns immediately) and re-sorts the
already sorted event list, which a stable sort leaves unchanged; it
touches no simulation state. -/
def notifyAdjZero (st : ProcState) (d : Date) : ProcState :=
  if max (st.outstanding - st.deposit_balance) 0 ≤ 0
      ∧ 0 < st.prev_adjusted ∧ st.loan_closure_flag = false then
    { st with adjusted_zero_notices := st.adjusted_zero_notices ++ [d] }
  else st

/-- Lines 121–124 of `process`, after the adjusted-zero branch. -/
def notify (st : ProcState) (d : Date) : ProcState :=
  if st.outstanding ≤ 0 ∧ st.loan_closure_flag = false then
    { (notifyAdjZero st d) with
        loan_closure_flag := true,
        closure_notices := (notifyAdjZero st d).closure_notices ++ [d] }
  else notifyAdjZero st d

/-- Lines 126–143 of `process`: dispatch on the event type string.
Note there is no `"Start"` branch: a Start (or unknown-tag) event
changes nothing and emits no row. -/
def applyEvent (st : ProcState) (ev : LedgerEvent) : ProcState :=
  if ev.type = "Deposit" then
    let st1 := { st with deposit_balance := st.deposit_balance + ev.amount }
    { st1 with ledger := st1.ledger ++ [mkEntry st1 ev.date "Deposit" ev.amount 0 0] }
  else if ev.type = "Withdraw" then
    let st1 := { st with deposit_balance := st.deposit_balance - ev.amount }
    { st1 with ledger := st1.ledger ++ [mkEntry st1 ev.date "Withdraw" ev.amount 0 0] }
  else if ev.type = "Pre-Pay" then
    let st1 := { st with outstanding := st.outstanding - ev.amount }
    { st1 with ledger := st1.ledger ++ [mkEntry st1 ev.date "Pre-Pay" ev.amount ev.amount 0] }
  else if ev.type = "EMI" then
    if st.outstanding ≤ 0 then
      { st with ledger := st.ledger ++ [mkEntry st ev.date "EMI" 0 0 0] }
    else
      let int_part := min st.accrued_interest ev.amount
      let princ_part := ev.amount - int_part
      let st1 := { st with accrued_interest := st.accrued_interest - int_part,
                           outstanding := st.outstanding - princ_part }
      { st1 with ledger :=
          st1.ledger ++ [mkEntry st1 ev.date "EMI" ev.amount princ_part int_part] }
  else st

/-- One iteration of the `for ev in self.events` loop of `process`:
accrue the gap interest, fire the notifications, apply the event, and
update `prev_date`/`prev_adjusted` (the latter to the pre-event
adjusted principal computed at line 111). -/
def processStep (rate_day : ℚ) (st : ProcState) (ev : LedgerEvent) : ProcState :=
  let adjusted := max (st.outstanding - st.deposit_balance) 0
  { applyEvent (notify (accrue rate_day st ev.date) ev.date) ev with
      prev_date := ev.date, prev_adjusted := adjusted }

/-- The sort key of `self.events.sort(key=lambda x: x.date)`:
chronological comparison of the event dates. -/
def evLE (a b : LedgerEvent) : Prop :=
  a.date.toOrdinal ≤ b.date.toOrdinal

instance : DecidableRel evLE :=
  fun a b => inferInstanceAs (Decidable (a.date.toOrdinal ≤ b.date.toOrdinal))

instance : IsTotal LedgerEvent evLE :=
  ⟨fun a b => le_total a.date.toOrdinal b.date.toOrdinal⟩

instance : IsTrans LedgerEvent evLE :=
  ⟨fun _ _ _ h1 h2 => le_trans h1 h2⟩

/-- `self.events.sort(key=lambda x: x.date)`: Python's list sort is a
stable sort by the date key; any stable sort computes the same
permutation, so it is modelled by stable insertion sort. -/
def sortEvents (l : List LedgerEvent) : List LedgerEvent :=
  List.insertionSort evLE l

/-- The full event list at the moment `process` sorts it: the user
events in the order they were supplied to `add_event`, then the
`Start` event appended at line 97, then the generated EMI events of
lines 100–102 (one month apart, starting one month after
disbursement, each carrying the installment amount). -/
def buildEvents (userEvents : List LedgerEvent) (disb : Date)
    (tenure_months : ℕ) (emi : ℚ) : List LedgerEvent :=
  userEvents ++ [{ date := disb, type := "Start", amount := 0 }]
    ++ (List.range tenure_months).map
        (fun i => { date := disb.addMonths (i + 1), type := "EMI", amount := emi })

/-- The state at the top of the `process` loop: fields set by
`__init__` (outstanding = principal, deposit balance 0, flag unset)
plus the loop locals of lines 105–107. -/
def initialState (principal : ℚ) (firstDate : Date) : ProcState :=
  { outstanding := principal, deposit_balance := 0, accrued_interest := 0,
    loan_closure_flag := false, prev_date := firstDate,
    prev_adjusted := max (principal - 0) 0, ledger := [],
    closure_notices := [], adjusted_zero_notices := [] }

/-- `OverdraftLedger.process` in UI/test mode: build and sort the
event list, then walk it once.  `prev_date` starts at the first sorted
event's date (the list is never empty since it contains `Start`;
`headD` supplies the irrelevant default). -/
def process (principal rate_day emi : ℚ) (tenure_months : ℕ) (disb : Date)
    (userEvents : List LedgerEvent) : ProcState :=
  (sortEvents (buildEvents userEvents disb tenure_months emi)).foldl
    (processStep rate_day)
    (initialState principal
      (((sortEvents (buildEvents userEvents disb tenure_months emi)).headD
        { date := disb, type := "Start", amount := 0 }).date))

/-- The immutable loan terms taken by `OverdraftLedger.__init__`. -/
structure OverdraftLedger where
  principal : ℚ
  annual_rate : ℚ
  tenure_years : ℚ
  disbursement_date : Date
deriving DecidableEq

/-- Line 28: `self.rate_day = annual_rate / 365 / 100`. -/
def OverdraftLedger.rate_day (L : OverdraftLedger) : ℚ :=
  L.annual_rate / 365 / 100

/-- Line 29: `self.tenure_months = int(tenure_years * 12)`. -/
def OverdraftLedger.tenure_months (L : OverdraftLedger) : ℕ :=
  (pyInt (L.tenure_years * 12)).toNat

/-- A full UI-mode simulation run of `process`, with the installment
amount as a parameter (the engine carries `self.emi` as an opaque
amount into the generated EMI events; its computation is modelled by
`compute_emi` below). -/
def OverdraftLedger.simulate (L : OverdraftLedger) (emi : ℚ)
    (userEvents : List LedgerEvent) : ProcState :=
  process L.principal L.rate_day emi L.tenure_months L.disbursement_date userEvents

/-- `OverdraftLedger.compute_emi` (lines 37–48).  The tenure enters as
the exponent of `(1 + r) ** n`; it is modelled here at a whole number
of years, where the Python float power coincides with exact rational
exponentiation.  Raising `ValueError` is modelled by `Except.error`
with the source's message. -/
def compute_emi (principal annual_rate : ℚ) (tenure_years : ℕ) : Except String ℚ :=
  if annual_rate / 100 ≤ 0 ∨ (tenure_years : ℚ) ≤ 0 then
    .error "Cannot compute EMI with zero or negative interest rate or tenure."
  else if (1 + annual_rate / 100) ^ tenure_years - 1 = 0 then
    .error "Invalid EMI denominator calculation."
  else
    .ok (round2 (principal * (annual_rate / 100) * (1 + annual_rate / 100) ^ tenure_years
      / ((1 + annual_rate / 100) ^ tenure_years - 1) / 12))

/-- The configuration produced by a successful `__init__`: the derived
fields, the computed installment, and the (empty) row list. -/
structure LedgerConfig where
  principal : ℚ
  rate_day : ℚ
  tenure_months : ℕ
  disbursement_date : Date
  emi : ℚ
  ledger : List LedgerRow
deriving DecidableEq

/-- `OverdraftLedger.__init__` (lines 14–35) at a whole number of
tenure years: validate the three terms, then compute the installment
(which can itself raise), then set up the empty ledger.  Failures are
the source's `ValueError`s. -/
def initLedger (principal annual_rate : ℚ) (tenure_years : ℕ) (disb : Date) :
    Except String LedgerConfig :=
  if principal ≤ 0 then .error "Loan principal must be a positive number."
  else if annual_rate ≤ 0 then .error "Interest rate must be a positive number."
  else if (tenure_years : ℚ) ≤ 0 then .error "Tenure must be a positive number of years."
  else
    match compute_emi principal annual_rate tenure_years with
    | .error e => .error e
    | .ok emi =>
        .ok { principal := principal, rate_day := annual_rate / 365 / 100,
              tenure_months := tenure_years * 12, disbursement_date := disb,
              emi := emi, ledger := [] }
/-- The event tags that have a dispatch branch in lines 126–143 and
therefore emit exactly one ledger row; `"Start"` and unknown tags fall
through and emit none. -/
def emitsRow (ev : LedgerEvent) : Prop :=
  ev.type = "Deposit" ∨ ev.type = "Withdraw" ∨ ev.type = "Pre-Pay" ∨ ev.type = "EMI"

instance (ev : LedgerEvent) : Decidable (emitsRow ev) :=
  inferInstanceAs (Decidable (_ ∨ _ ∨ _ ∨ _))

/-- A concrete mid-run state (loan still open) used to instantiate the
per-step theorems. -/
def sampleState : ProcState :=
  { outstanding := 100, deposit_balance := 0, accrued_interest := 7/10,
    loan_closure_flag := false, prev_date := { year := 2025, month := 1, day := 1 },
    prev_adjusted := 100, ledger := [], closure_notices := [],
    adjusted_zero_notices := [] }

/-- A concrete state whose loan is already closed (outstanding = 0),
used to instantiate the per-step theorems. -/
def sampleClosedState : ProcState :=
  { outstanding := 0, deposit_balance := 5, accrued_interest := 2,
    loan_closure_flag := false, prev_date := { year := 2025, month := 3, day := 1 },
    prev_adjusted := 0, ledger := [], closure_notices := [],
    adjusted_zero_notices := [] }

/-! ### Rounding lemmas -/

theorem le_roundHalfEven (x : ℚ) : ⌊x⌋ ≤ roundHalfEven x := by
  unfold roundHalfEven
  split_ifs <;> omega

theorem roundHalfEven_le (x : ℚ) : roundHalfEven x ≤ ⌊x⌋ + 1 := by
  unfold roundHalfEven
  split_ifs <;> omega

theorem roundHalfEven_mono {x y : ℚ} (h : x ≤ y) :
    roundHalfEven x ≤ roundHalfEven y := by
  have hfl : ⌊x⌋ ≤ ⌊y⌋ := Int.floor_mono h
  rcases eq_or_lt_of_le hfl with heq | hlt
  · have hx1 : ((⌊x⌋ : ℤ) : ℚ) ≤ x := Int.floor_le x
    have hxy : x - ⌊x⌋ ≤ y - ⌊x⌋ := by linarith
    unfold roundHalfEven
    rw [← heq]
    split_ifs <;> first
      | omega
      | (exfalso; linarith)
  · have h1 := roundHalfEven_le x
    have h2 := le_roundHalfEven y
    omega

theorem roundHalfEven_nonneg {x : ℚ} (h : 0 ≤ x) : 0 ≤ roundHalfEven x := by
  have h1 : (0 : ℤ) ≤ ⌊x⌋ := Int.floor_nonneg.mpr h
  have h2 := le_roundHalfEven x
  omega

theorem round2_mono {x y : ℚ} (h : x ≤ y) : round2 x ≤ round2 y := by
  unfold round2
  have h1 : roundHalfEven (x * 100) ≤ roundHalfEven (y * 100) :=
    roundHalfEven_mono (by linarith)
  have h2 : ((roundHalfEven (x * 100) : ℤ) : ℚ) ≤ ((roundHalfEven (y * 100) : ℤ) : ℚ) := by
    exact_mod_cast h1
  linarith

theorem round2_nonneg {x : ℚ} (h : 0 ≤ x) : 0 ≤ round2 x := by
  unfold round2
  have h1 : (0 : ℤ) ≤ roundHalfEven (x * 100) := roundHalfEven_nonneg (by linarith)
  have h2 : (0 : ℚ) ≤ ((roundHalfEven (x * 100) : ℤ) : ℚ) := by exact_mod_cast h1
  linarith

theorem round2_zero : round2 0 = 0 := by decide

/-! ### Projection lemmas for the step components -/

@[simp] theorem accrue_outstanding (r : ℚ) (st : ProcState) (d : Date) :
    (accrue r st d).outstanding = st.outstanding := rfl

@[simp] theorem accrue_deposit_balance (r : ℚ) (st : ProcState) (d : Date) :
    (accrue r st d).deposit_balance = st.deposit_balance := rfl

@[simp] theorem accrue_loan_closure_flag (r : ℚ) (st : ProcState) (d : Date) :
    (accrue r st d).loan_closure_flag = st.loan_closure_flag := rfl

@[simp] theorem accrue_prev_date (r : ℚ) (st : ProcState) (d : Date) :
    (accrue r st d).prev_date = st.prev_date := rfl

@[simp] theorem accrue_prev_adjusted (r : ℚ) (st : ProcState) (d : Date) :
    (accrue r st d).prev_adjusted = st.prev_adjusted := rfl

@[simp] theorem accrue_ledger (r : ℚ) (st : ProcState) (d : Date) :
    (accrue r st d).ledger = st.ledger := rfl

@[simp] theorem accrue_closure_notices (r : ℚ) (st : ProcState) (d : Date) :
    (accrue r st d).closure_notices = st.closure_notices := rfl

theorem accrue_accrued_interest (r : ℚ) (st : ProcState) (d : Date) :
    (accrue r st d).accrued_interest
      = st.accrued_interest
          + max (st.outstanding - st.deposit_balance) 0 * r
              * ((d.toOrdinal - st.prev_date.toOrdinal : ℤ) : ℚ) := rfl

@[simp] theorem notifyAdjZero_outstanding (st : ProcState) (d : Date) :
    (notifyAdjZero st d).outstanding = st.outstanding := by
  unfold notifyAdjZero; split_ifs <;> rfl

@[simp] theorem notifyAdjZero_deposit_balance (st : ProcState) (d : Date) :
    (notifyAdjZero st d).deposit_balance = st.deposit_balance := by
  unfold notifyAdjZero; split_ifs <;> rfl

@[simp] theorem notifyAdjZero_accrued_interest (st : ProcState) (d : Date) :
    (notifyAdjZero st d).accrued_interest = st.accrued_interest := by
  unfold notifyAdjZero; split_ifs <;> rfl

@[simp] theorem notifyAdjZero_loan_closure_flag (st : ProcState) (d : Date) :
    (notifyAdjZero st d).loan_closure_flag = st.loan_closure_flag := by
  unfold notifyAdjZero; split_ifs <;> rfl

@[simp] theorem notifyAdjZero_ledger (st : ProcState) (d : Date) :
    (notifyAdjZero st d).ledger = st.ledger := by
  unfold notifyAdjZero; split_ifs <;> rfl

@[simp] theorem notifyAdjZero_prev_date (st : ProcState) (d : Date) :
    (notifyAdjZero st d).prev_date = st.prev_date := by
  unfold notifyAdjZero; split_ifs <;> rfl

@[simp] theorem notifyAdjZero_prev_adjusted (st : ProcState) (d : Date) :
    (notifyAdjZero st d).prev_adjusted = st.prev_adjusted := by
  unfold notifyAdjZero; split_ifs <;> rfl

@[simp] theorem notifyAdjZero_closure_notices (st : ProcState) (d : Date) :
    (notifyAdjZero st d).closure_notices = st.closure_notices := by
  unfold notifyAdjZero; split_ifs <;> rfl

@[simp] theorem notify_outstanding (st : ProcState) (d : Date) :
    (notify st d).outstanding = st.outstanding := by
  unfold notify; split_ifs <;> simp

@[simp] theorem notify_deposit_balance (st : ProcState) (d : Date) :
    (notify st d).deposit_balance = st.deposit_balance := by
  unfold notify; split_ifs <;> simp

@[simp] theorem notify_accrued_interest (st : ProcState) (d : Date) :
    (notify st d).accrued_interest = st.accrued_interest := by
  unfold notify; split_ifs <;> simp

@[simp] theorem notify_ledger (st : ProcState) (d : Date) :
    (notify st d).ledger = st.ledger := by
  unfold notify; split_ifs <;> simp

@[simp] theorem notify_prev_date (st : ProcState) (d : Date) :
    (notify st d).prev_date = st.prev_date := by
  unfold notify; split_ifs <;> simp

@[simp] theorem notify_prev_adjusted (st : ProcState) (d : Date) :
    (notify st d).prev_adjusted = st.prev_adjusted := by
  unfold notify; split_ifs <;> simp

theorem notify_flag_iff (st : ProcState) (d : Date) :
    (notify st d).loan_closure_flag = true
      ↔ (st.loan_closure_flag = true ∨ st.outstanding ≤ 0) := by
  unfold notify
  split_ifs with h1 <;> simp_all

theorem notify_closure_notices (st : ProcState) (d : Date) :
    (notify st d).closure_notices
      = if st.outstanding ≤ 0 ∧ st.loan_closure_flag = false
        then st.closure_notices ++ [d] else st.closure_notices := by
  unfold notify
  split_ifs <;> simp

/-! ### applyEvent branch characterizations -/

theorem applyEvent_deposit (st : ProcState) (ev : LedgerEvent)
    (h : ev.type = "Deposit") :
    applyEvent st ev =
      { st with deposit_balance := st.deposit_balance + ev.amount,
                ledger := st.ledger ++
                  [mkEntry { st with deposit_balance := st.deposit_balance + ev.amount }
                    ev.date "Deposit" ev.amount 0 0] } := by
  unfold applyEvent
  rw [if_pos h]

theorem applyEvent_withdraw (st : ProcState) (ev : LedgerEvent)
    (h : ev.type = "Withdraw") :
    applyEvent st ev =
      { st with deposit_balance := st.deposit_balance - ev.amount,
                ledger := st.ledger ++
                  [mkEntry { st with deposit_balance := st.deposit_balance - ev.amount }
                    ev.date "Withdraw" ev.amount 0 0] } := by
  unfold applyEvent
  rw [if_neg (by simp [h]), if_pos h]

theorem applyEvent_prepay (st : ProcState) (ev : LedgerEvent)
    (h : ev.type = "Pre-Pay") :
    applyEvent st ev =
      { st with outstanding := st.outstanding - ev.amount,
                ledger := st.ledger ++
                  [mkEntry { st with outstanding := st.outstanding - ev.amount }
                    ev.date "Pre-Pay" ev.amount ev.amount 0] } := by
  unfold applyEvent
  rw [if_neg (by simp [h]), if_neg (by simp [h]), if_pos h]

theorem applyEvent_emi_closed (st : ProcState) (ev : LedgerEvent)
    (hty : ev.type = "EMI") (hout : st.outstanding ≤ 0) :
    applyEvent st ev
      = { st with ledger := st.ledger ++ [mkEntry st ev.date "EMI" 0 0 0] } := by
  unfold applyEvent
  rw [if_neg (by simp [hty]), if_neg (by simp [hty]), if_neg (by simp [hty]),
    if_pos hty, if_pos hout]

theorem applyEvent_emi_open (st : ProcState) (ev : LedgerEvent)
    (hty : ev.type = "EMI") (hout : ¬ st.outstanding ≤ 0) :
    applyEvent st ev =
      { st with
          accrued_interest := st.accrued_interest - min st.accrued_interest ev.amount,
          outstanding := st.outstanding - (ev.amount - min st.accrued_interest ev.amount),
          ledger := st.ledger ++
            [mkEntry
              { st with
                  accrued_interest := st.accrued_interest - min st.accrued_interest ev.amount,
                  outstanding := st.outstanding - (ev.amount - min st.accrued_interest ev.amount) }
              ev.date "EMI" ev.amount (ev.amount - min st.accrued_interest ev.amount)
              (min st.accrued_interest ev.amount)] } := by
  unfold applyEvent
  rw [if_neg (by simp [hty]), if_neg (by simp [hty]), if_neg (by simp [hty]),
    if_pos hty, if_neg hout]

theorem applyEvent_no_branch (st : ProcState) (ev : LedgerEvent)
    (h : ¬ emitsRow ev) : applyEvent st ev = st := by
  unfold applyEvent
  rw [if_neg (fun hc => h (Or.inl hc)),
    if_neg (fun hc => h (Or.inr (Or.inl hc))),
    if_neg (fun hc => h (Or.inr (Or.inr (Or.inl hc)))),
    if_neg (fun hc => h (Or.inr (Or.inr (Or.inr hc))))]

/-! ### applyEvent field lemmas -/

theorem applyEvent_loan_closure_flag (st : ProcState) (ev : LedgerEvent) :
    (applyEvent st ev).loan_closure_flag = st.loan_closure_flag := by
  unfold applyEvent; split_ifs <;> rfl

theorem applyEvent_closure_notices (st : ProcState) (ev : LedgerEvent) :
    (applyEvent st ev).closure_notices = st.closure_notices := by
  unfold applyEvent; split_ifs <;> rfl

theorem applyEvent_outstanding_le (st : ProcState) (ev : LedgerEvent)
    (h : 0 ≤ ev.amount) : (applyEvent st ev).outstanding ≤ st.outstanding := by
  have hmin := min_le_right st.accrued_interest ev.amount
  unfold applyEvent
  split_ifs <;> (try dsimp only) <;> linarith

theorem applyEvent_ledger_spec (st : ProcState) (ev : LedgerEvent) :
    ∃ t, (applyEvent st ev).ledger = st.ledger ++ t
      ∧ t.length = (if emitsRow ev then 1 else 0)
      ∧ ∀ rr ∈ t, rr.outstanding = round2 ((applyEvent st ev).outstanding) := by
  by_cases h1 : ev.type = "Deposit"
  · rw [applyEvent_deposit st ev h1]
    exact ⟨_, rfl, by simp [emitsRow, h1], by simp [mkEntry]⟩
  · by_cases h2 : ev.type = "Withdraw"
    · rw [applyEvent_withdraw st ev h2]
      exact ⟨_, rfl, by simp [emitsRow, h2], by simp [mkEntry]⟩
    · by_cases h3 : ev.type = "Pre-Pay"
      · rw [applyEvent_prepay st ev h3]
        exact ⟨_, rfl, by simp [emitsRow, h3], by simp [mkEntry]⟩
      · by_cases h4 : ev.type = "EMI"
        · by_cases h5 : st.outstanding ≤ 0
          · rw [applyEvent_emi_closed st ev h4 h5]
            exact ⟨_, rfl, by simp [emitsRow, h4], by simp [mkEntry]⟩
          · rw [applyEvent_emi_open st ev h4 h5]
            exact ⟨_, rfl, by simp [emitsRow, h4], by simp [mkEntry]⟩
        · have h : ¬ emitsRow ev := by simp [emitsRow, h1, h2, h3, h4]
          rw [applyEvent_no_branch st ev h]
          exact ⟨[], by simp, by simp [h], by simp⟩

/-! ### processStep lemmas -/

theorem processStep_prev_date (r : ℚ) (st : ProcState) (ev : LedgerEvent) :
    (processStep r st ev).prev_date = ev.date := rfl

theorem processStep_prev_adjusted (r : ℚ) (st : ProcState) (ev : LedgerEvent) :
    (processStep r st ev).prev_adjusted
      = max (st.outstanding - st.deposit_balance) 0 := rfl

theorem processStep_outstanding_eq (r : ℚ) (st : ProcState) (ev : LedgerEvent) :
    (processStep r st ev).outstanding
      = (applyEvent (notify (accrue r st ev.date) ev.date) ev).outstanding := rfl

theorem processStep_outstanding_le (r : ℚ) (st : ProcState) (ev : LedgerEvent)
    (h : 0 ≤ ev.amount) : (processStep r st ev).outstanding ≤ st.outstanding := by
  have h1 := applyEvent_outstanding_le (notify (accrue r st ev.date) ev.date) ev h
  simpa using h1

theorem processStep_flag_iff (r : ℚ) (st : ProcState) (ev : LedgerEvent) :
    (processStep r st ev).loan_closure_flag = true
      ↔ (st.loan_closure_flag = true ∨ st.outstanding ≤ 0) := by
  have h1 : (processStep r st ev).loan_closure_flag
      = (notify (accrue r st ev.date) ev.date).loan_closure_flag := by
    simp [processStep, applyEvent_loan_closure_flag]
  rw [h1, notify_flag_iff]
  simp

theorem processStep_closure_notices (r : ℚ) (st : ProcState) (ev : LedgerEvent) :
    (processStep r st ev).closure_notices
      = if st.outstanding ≤ 0 ∧ st.loan_closure_flag = false
        then st.closure_notices ++ [ev.date] else st.closure_notices := by
  have h1 : (processStep r st ev).closure_notices
      = (notify (accrue r st ev.date) ev.date).closure_notices := by
    simp [processStep, applyEvent_closure_notices]
  rw [h1, notify_closure_notices]
  simp

theorem processStep_ledger_spec (r : ℚ) (st : ProcState) (ev : LedgerEvent) :
    ∃ t, (processStep r st ev).ledger = st.ledger ++ t
      ∧ t.length = (if emitsRow ev then 1 else 0)
      ∧ ∀ rr ∈ t, rr.outstanding = round2 ((processStep r st ev).outstanding) := by
  obtain ⟨t, h1, h2, h3⟩ := applyEvent_ledger_spec (notify (accrue r st ev.date) ev.date) ev
  refine ⟨t, ?_, h2, ?_⟩
  · simpa [processStep] using h1
  · intro rr hrr
    simpa [processStep] using h3 rr hrr

/-! ### Run-level lemmas -/

theorem foldl_ledger_length (r : ℚ) (evs : List LedgerEvent) : ∀ st : ProcState,
    ((evs.foldl (processStep r) st).ledger).length
      = st.ledger.length + evs.countP (fun e => decide (emitsRow e)) := by
  induction evs with
  | nil => intro st; simp
  | cons ev evs ih =>
      intro st
      rw [List.foldl_cons, ih]
      obtain ⟨t, h1, h2, h3⟩ := processStep_ledger_spec r st ev
      rw [h1, List.length_append, h2, List.countP_cons]
      by_cases h : emitsRow ev <;> (simp [h]; try omega)

theorem foldl_ledger_pairwise (r : ℚ) (evs : List LedgerEvent) : ∀ st : ProcState,
    (∀ e ∈ evs, 0 ≤ e.amount) →
    st.ledger.Pairwise (fun a b => b.outstanding ≤ a.outstanding) →
    (∀ rr ∈ st.ledger, round2 st.outstanding ≤ rr.outstanding) →
    ((evs.foldl (processStep r) st).ledger.Pairwise
        (fun a b => b.outstanding ≤ a.outstanding)
      ∧ ∀ rr ∈ (evs.foldl (processStep r) st).ledger,
          round2 ((evs.foldl (processStep r) st).outstanding) ≤ rr.outstanding) := by
  induction evs with
  | nil => intro st _ hP hB; exact ⟨hP, hB⟩
  | cons ev evs ih =>
      intro st h hP hB
      rw [List.foldl_cons]
      have hev : 0 ≤ ev.amount := h ev (List.mem_cons_self ev evs)
      have hout : (processStep r st ev).outstanding ≤ st.outstanding :=
        processStep_outstanding_le r st ev hev
      obtain ⟨t, h1, h2, h3⟩ := processStep_ledger_spec r st ev
      have htP : t.Pairwise (fun a b => b.outstanding ≤ a.outstanding) := by
        rcases t with _ | ⟨a, _ | ⟨b, t⟩⟩
        · exact List.Pairwise.nil
        · simp
        · exfalso
          split_ifs at h2 <;> simp at h2
      have hBnew : ∀ rr ∈ (processStep r st ev).ledger,
          round2 ((processStep r st ev).outstanding) ≤ rr.outstanding := by
        intro rr hrr
        rw [h1] at hrr
        rcases List.mem_append.mp hrr with hold | hnew
        · calc round2 ((processStep r st ev).outstanding)
              ≤ round2 st.outstanding := round2_mono hout
            _ ≤ rr.outstanding := hB rr hold
        · rw [h3 rr hnew]
      have hPnew : (processStep r st ev).ledger.Pairwise
          (fun a b => b.outstanding ≤ a.outstanding) := by
        rw [h1]
        refine List.pairwise_append.mpr ⟨hP, htP, ?_⟩
        intro a ha b hb
        rw [h3 b hb]
        calc round2 ((processStep r st ev).outstanding)
            ≤ round2 st.outstanding := round2_mono hout
          _ ≤ a.outstanding := hB a ha
      exact ih (processStep r st ev) (fun e he => h e (List.mem_cons_of_mem ev he))
        hPnew hBnew

theorem foldl_closure_notices_bound (r : ℚ) (evs : List LedgerEvent) :
    ∀ st : ProcState,
    ((evs.foldl (processStep r) st).closure_notices).length
      ≤ st.closure_notices.length
          + (if st.loan_closure_flag = false then 1 else 0) := by
  induction evs with
  | nil =>
      intro st
      split_ifs <;> simp
  | cons ev evs ih =>
      intro st
      rw [List.foldl_cons]
      have hn := processStep_closure_notices r st ev
      have hf := processStep_flag_iff r st ev
      have hih := ih (processStep r st ev)
      by_cases hflag : st.loan_closure_flag = false
      · by_cases hout : st.outstanding ≤ 0
        · rw [if_pos (by exact ⟨hout, hflag⟩)] at hn
          have hf2 : (processStep r st ev).loan_closure_flag = true :=
            hf.mpr (Or.inr hout)
          rw [hn, hf2] at hih
          simp at hih
          rw [if_pos hflag]
          omega
        · rw [if_neg (by tauto)] at hn
          rw [hn] at hih
          rw [if_pos hflag]
          split_ifs at hih <;> omega
      · rw [if_neg (by tauto)] at hn
        have hf2 : (processStep r st ev).loan_closure_flag = true := by
          apply hf.mpr
          left
          revert hflag
          cases st.loan_closure_flag <;> simp
        rw [hn, hf2] at hih
        simp at hih
        rw [if_neg hflag]
        omega

/-! ### Stable sort lemmas -/

theorem filter_orderedInsert_key (k : ℤ) (a : LedgerEvent) (l : List LedgerEvent) :
    (List.orderedInsert evLE a l).filter (fun e => decide (e.date.toOrdinal = k))
      = if a.date.toOrdinal = k
        then a :: l.filter (fun e => decide (e.date.toOrdinal = k))
        else l.filter (fun e => decide (e.date.toOrdinal = k)) := by
  induction l with
  | nil =>
      rw [List.orderedInsert_nil, List.filter_singleton]
      split_ifs <;> simp_all
  | cons b l ih =>
      rw [List.orderedInsert]
      by_cases hab : evLE a b
      · rw [if_pos hab]
        by_cases ha : a.date.toOrdinal = k <;>
          simp [List.filter_cons, ha]
      · rw [if_neg hab]
        by_cases ha : a.date.toOrdinal = k
        · have hb : ¬ b.date.toOrdinal = k := by
            intro hb
            exact hab (by unfold evLE; rw [ha, hb])
          simp [List.filter_cons, ha, hb, ih]
        · simp only [List.filter_cons, ih, if_neg ha]

theorem sortEvents_filter_key (k : ℤ) (l : List LedgerEvent) :
    (sortEvents l).filter (fun e => decide (e.date.toOrdinal = k))
      = l.filter (fun e => decide (e.date.toOrdinal = k)) := by
  induction l with
  | nil => rfl
  | cons a l ih =>
      rw [show sortEvents (a :: l) = List.orderedInsert evLE a (sortEvents l) from rfl]
      rw [filter_orderedInsert_key, ih, List.filter_cons]
      by_cases ha : a.date.toOrdinal = k <;> simp [ha]

theorem applyEvent_accrued_of_ne_emi (st : ProcState) (ev : LedgerEvent)
    (h : ev.type ≠ "EMI") :
    (applyEvent st ev).accrued_interest = st.accrued_interest := by
  by_cases h1 : ev.type = "Deposit"
  · rw [applyEvent_deposit st ev h1]
  · by_cases h2 : ev.type = "Withdraw"
    · rw [applyEvent_withdraw st ev h2]
    · by_cases h3 : ev.type = "Pre-Pay"
      · rw [applyEvent_prepay st ev h3]
      · rw [applyEvent_no_branch st ev (by simp [emitsRow, h1, h2, h3, h])]

theorem countP_buildEvents (userEvents : List LedgerEvent) (disb : Date)
    (tm : ℕ) (emi : ℚ) (hu : ∀ e ∈ userEvents, emitsRow e) :
    (buildEvents userEvents disb tm emi).countP (fun e => decide (emitsRow e))
      = userEvents.length + tm := by
  unfold buildEvents
  rw [List.countP_append, List.countP_append]
  have h1 : userEvents.countP (fun e => decide (emitsRow e)) = userEvents.length :=
    List.countP_eq_length.mpr (fun e he => by simpa using hu e he)
  have h2 : (({ date := disb, type := "Start", amount := 0 } :
      LedgerEvent) :: []).countP (fun e => decide (emitsRow e)) = 0 := by
    simp [emitsRow]
  have h3 : (((List.range tm).map (fun i =>
      ({ date := disb.addMonths (i + 1), type := "EMI", amount := emi } :
        LedgerEvent))).countP (fun e => decide (emitsRow e)))
      = tm := by
    rw [List.countP_eq_length.mpr, List.length_map, List.length_range]
    intro e he
    obtain ⟨i, _, rfl⟩ := List.mem_map.mp he
    simp [emitsRow]
  rw [h1, h2, h3]
  omega

theorem tenure_months_eq_floor (L : OverdraftLedger) (h : 0 < L.tenure_years) :
    L.tenure_months = (⌊L.tenure_years * 12⌋).toNat := by
  unfold OverdraftLedger.tenure_months pyInt
  rw [if_pos (by nlinarith : (0:ℚ) ≤ L.tenure_years * 12)]

/-! ### The claims -/

/-- C1 (counterexample): with principal 0.01, rate 100% and tenure one
year, `compute_emi` returns exactly 0 — the two-decimal rounding sends
the positive unrounded installment 1/600 to zero, so the claimed
strict positivity of the result fails. -/
theorem c1_counterexample :
    compute_emi (1/100) 100 1 = Except.ok 0 ∧ ¬ ((0:ℚ) > 0) := by
  constructor
  · decide
  · decide

/-- C1 (amended): for positive principal, rate and (whole-year)
tenure, `compute_emi` returns
`round2 (p * r * (1+r)^n / ((1+r)^n - 1) / 12)` with `r` the yearly
fractional rate, and -- being a pure function of its arguments, hence
deterministic -- its value is non-negative (it can round to exactly 0
for tiny principals, so `> 0` must weaken to `≥ 0`). -/
theorem c1_compute_emi_formula (p annual_rate : ℚ) (n : ℕ)
    (hp : 0 < p) (hr : 0 < annual_rate) (hn : 0 < n) :
    compute_emi p annual_rate n
      = Except.ok (round2 (p * (annual_rate/100) * (1 + annual_rate/100)^n
          / ((1 + annual_rate/100)^n - 1) / 12))
  ∧ ∀ q : ℚ, compute_emi p annual_rate n = Except.ok q → 0 ≤ q := by
  have hr' : 0 < annual_rate / 100 := by positivity
  have hpow : 1 < (1 + annual_rate/100) ^ n :=
    one_lt_pow₀ (by linarith) (Nat.pos_iff_ne_zero.mp hn)
  have hval : compute_emi p annual_rate n
      = Except.ok (round2 (p * (annual_rate/100) * (1 + annual_rate/100)^n
          / ((1 + annual_rate/100)^n - 1) / 12)) := by
    unfold compute_emi
    rw [if_neg (by push_neg; exact ⟨hr', by exact_mod_cast hn⟩),
      if_neg (by intro hc; linarith [sub_eq_zero.mp hc])]
  refine ⟨hval, ?_⟩
  intro q hq
  rw [hval] at hq
  injection hq with hq
  rw [← hq]
  apply round2_nonneg
  have h2 : (0:ℚ) < (1 + annual_rate/100)^n := by linarith
  have h3 : (0:ℚ) < (1 + annual_rate/100)^n - 1 := by linarith
  positivity

/-- C1 (witness): the amended theorem applied at principal 1000,
rate 10 %, tenure 1 year. -/
theorem c1_witness :
    (0:ℚ) < 1000 ∧ (0:ℚ) < 10 ∧ 0 < 1
  ∧ (compute_emi 1000 10 1
      = Except.ok (round2 (1000 * (10/100) * (1 + 10/100)^1
          / ((1 + 10/100)^1 - 1) / 12))
    ∧ ∀ q : ℚ, compute_emi 1000 10 1 = Except.ok q → 0 ≤ q) :=
  ⟨by norm_num, by norm_num, by norm_num,
    c1_compute_emi_formula 1000 10 1 (by norm_num) (by norm_num) (by norm_num)⟩

/-- C2 (counterexample): a user deposit dated on the disbursement day
sorts BEFORE the Start event (and before the EMI events), not after
them: the user events are appended to `self.events` before `process`
appends Start and the EMI schedule, and the stable sort keeps that
order on equal dates.  The claimed tie-break (Start first, then EMI,
then user events) predicts `["Start", "Deposit", "EMI"]` here. -/
theorem c2_counterexample :
    ((sortEvents (buildEvents
        [{ date := { year := 2025, month := 1, day := 1 },
           type := "Deposit", amount := 5 }]
        { year := 2025, month := 1, day := 1 } 1 7)).map
      (fun e => (e.type, e.date.toOrdinal))
      = [("Deposit", Date.toOrdinal { year := 2025, month := 1, day := 1 }),
         ("Start", Date.toOrdinal { year := 2025, month := 1, day := 1 }),
         ("EMI", Date.toOrdinal { year := 2025, month := 2, day := 1 })])
  ∧ (sortEvents (buildEvents
        [{ date := { year := 2025, month := 1, day := 1 },
           type := "Deposit", amount := 5 }]
        { year := 2025, month := 1, day := 1 } 1 7)).map (fun e => e.type)
      ≠ ["Start", "Deposit", "EMI"] := by
  constructor
  · decide
  · decide

/-- C2 (amended): the event list `process` walks is sorted ascending
by date, and the sort is stable: for every date, the subsequence of
events carrying that date is exactly their subsequence in the list as
built — user events in insertion order first, then the Start event,
then the generated EMI events (`buildEvents` appends in that order),
NOT Start first as claimed. -/
theorem c2_event_ordering (userEvents : List LedgerEvent) (disb : Date)
    (tenure_months : ℕ) (emi : ℚ) :
    List.Sorted evLE (sortEvents (buildEvents userEvents disb tenure_months emi))
  ∧ ∀ k : ℤ,
      (sortEvents (buildEvents userEvents disb tenure_months emi)).filter
          (fun e => decide (e.date.toOrdinal = k))
        = (buildEvents userEvents disb tenure_months emi).filter
            (fun e => decide (e.date.toOrdinal = k)) :=
  ⟨List.sorted_insertionSort evLE _, fun k => sortEvents_filter_key k _⟩

/-- C3: processing any event first accrues, for the gap since the
previous event, exactly
`max(outstanding - deposit, 0) * rate_day * (date - prev_date).days`
onto `accrued_interest` (for non-EMI events this is the whole change
of the pool across the step; an EMI event may then consume from it),
and a zero-day gap (equal consecutive dates) accrues exactly zero. -/
theorem c3_gap_accrual (rate_day : ℚ) (st : ProcState) (ev : LedgerEvent) :
    ((accrue rate_day st ev.date).accrued_interest
        = st.accrued_interest
            + max (st.outstanding - st.deposit_balance) 0 * rate_day
                * ((ev.date.toOrdinal - st.prev_date.toOrdinal : ℤ) : ℚ))
  ∧ (ev.type ≠ "EMI" →
      (processStep rate_day st ev).accrued_interest
        = st.accrued_interest
            + max (st.outstanding - st.deposit_balance) 0 * rate_day
                * ((ev.date.toOrdinal - st.prev_date.toOrdinal : ℤ) : ℚ))
  ∧ (ev.date = st.prev_date →
      (accrue rate_day st ev.date).accrued_interest = st.accrued_interest) := by
  refine ⟨accrue_accrued_interest rate_day st ev.date, ?_, ?_⟩
  · intro hne
    have h1 : (processStep rate_day st ev).accrued_interest
        = (applyEvent (notify (accrue rate_day st ev.date) ev.date) ev).accrued_interest :=
      rfl
    rw [h1, applyEvent_accrued_of_ne_emi _ _ hne, notify_accrued_interest,
      accrue_accrued_interest]
  · intro heq
    rw [accrue_accrued_interest, heq]
    simp

/-- The ledger effect of an EMI event on an open loan, shared by the
split and bounds theorems below. -/
theorem processStep_emi_open_ledger (rate_day : ℚ) (st : ProcState)
    (ev : LedgerEvent) (hty : ev.type = "EMI") (hout : 0 < st.outstanding) :
    (processStep rate_day st ev).ledger
      = st.ledger ++
        [mkEntry
          { st with outstanding := st.outstanding
              - (ev.amount
                  - min ((accrue rate_day st ev.date).accrued_interest) ev.amount) }
          ev.date "EMI" ev.amount
          (ev.amount - min ((accrue rate_day st ev.date).accrued_interest) ev.amount)
          (min ((accrue rate_day st ev.date).accrued_interest) ev.amount)] := by
  have h0 : (notify (accrue rate_day st ev.date) ev.date).outstanding = st.outstanding := by
    simp
  have happ := applyEvent_emi_open (notify (accrue rate_day st ev.date) ev.date) ev hty
    (by rw [h0]; exact not_le.mpr hout)
  have hstep : processStep rate_day st ev
      = { (applyEvent (notify (accrue rate_day st ev.date) ev.date) ev) with
            prev_date := ev.date,
            prev_adjusted := max (st.outstanding - st.deposit_balance) 0 } := rfl
  rw [hstep, happ]
  simp [mkEntry]

/-- C4: an EMI event processed while the loan is open
(outstanding > 0) splits the installment against the accrued-interest
pool as it stands after the gap accrual: the interest portion is
`min(accrued_interest, amount)`, the principal portion is the rest,
the pool decreases by the interest portion, the outstanding principal
decreases by the principal portion, and the emitted row records
amount, principal portion and interest portion (rounded). -/
theorem c4_emi_split (rate_day : ℚ) (st : ProcState) (ev : LedgerEvent)
    (hty : ev.type = "EMI") (hout : 0 < st.outstanding) :
    (processStep rate_day st ev).accrued_interest
        = (accrue rate_day st ev.date).accrued_interest
            - min ((accrue rate_day st ev.date).accrued_interest) ev.amount
  ∧ (processStep rate_day st ev).outstanding
        = st.outstanding
            - (ev.amount - min ((accrue rate_day st ev.date).accrued_interest) ev.amount)
  ∧ (processStep rate_day st ev).ledger
        = st.ledger ++
          [mkEntry
            { st with outstanding := st.outstanding
                - (ev.amount
                    - min ((accrue rate_day st ev.date).accrued_interest) ev.amount) }
            ev.date "EMI" ev.amount
            (ev.amount - min ((accrue rate_day st ev.date).accrued_interest) ev.amount)
            (min ((accrue rate_day st ev.date).accrued_interest) ev.amount)] := by
  have h0 : (notify (accrue rate_day st ev.date) ev.date).outstanding = st.outstanding := by
    simp
  have happ := applyEvent_emi_open (notify (accrue rate_day st ev.date) ev.date) ev hty
    (by rw [h0]; exact not_le.mpr hout)
  have hstep : processStep rate_day st ev
      = { (applyEvent (notify (accrue rate_day st ev.date) ev.date) ev) with
            prev_date := ev.date,
            prev_adjusted := max (st.outstanding - st.deposit_balance) 0 } := rfl
  refine ⟨?_, ?_, processStep_emi_open_ledger rate_day st ev hty hout⟩
  · rw [hstep, happ]; simp
  · rw [hstep, happ]; simp

/-- C4 (witness): the theorem applied to a concrete open-loan state
and a concrete EMI event; the resulting outstanding principal is
evaluated (gap interest 31, pool 31.7, interest portion 31.7,
principal portion 18.3, outstanding 100 - 18.3 = 81.7). -/
theorem c4_witness :
    ({ date := { year := 2025, month := 2, day := 1 }, type := "EMI",
        amount := 50 } : LedgerEvent).type = "EMI"
  ∧ (0:ℚ) < sampleState.outstanding
  ∧ (processStep (1/100) sampleState
      { date := { year := 2025, month := 2, day := 1 }, type := "EMI",
        amount := 50 }).outstanding = 817/10 := by
  refine ⟨rfl, by decide, ?_⟩
  have h := (c4_emi_split (1/100) sampleState
    { date := { year := 2025, month := 2, day := 1 }, type := "EMI", amount := 50 }
    rfl (by decide)).2.1
  rw [h]
  decide

/-- C5: an EMI event that arrives when the loan is already closed
(outstanding ≤ 0) emits a zero-value row (amount, principal portion
and interest portion all 0) and changes nothing in the event-dispatch
step: outstanding, deposit balance and the accrued-interest pool are
exactly as they were when the dispatch was reached (the preceding gap
accrual of step 3, covered by C3, is the only thing that can touch
the pool across the whole step, and outstanding and deposit balance
are unchanged across the whole step as well). -/
theorem c5_emi_after_closure (rate_day : ℚ) (st : ProcState) (ev : LedgerEvent)
    (hty : ev.type = "EMI") (hout : st.outstanding ≤ 0) :
    applyEvent st ev
        = { st with ledger := st.ledger ++ [mkEntry st ev.date "EMI" 0 0 0] }
  ∧ (mkEntry st ev.date "EMI" 0 0 0).amount = 0
  ∧ (mkEntry st ev.date "EMI" 0 0 0).principal = 0
  ∧ (mkEntry st ev.date "EMI" 0 0 0).interest = 0
  ∧ (processStep rate_day st ev).outstanding = st.outstanding
  ∧ (processStep rate_day st ev).deposit_balance = st.deposit_balance := by
  have h0 : (notify (accrue rate_day st ev.date) ev.date).outstanding = st.outstanding := by
    simp
  have happ := applyEvent_emi_closed (notify (accrue rate_day st ev.date) ev.date) ev hty
    (by rw [h0]; exact hout)
  have hstep : processStep rate_day st ev
      = { (applyEvent (notify (accrue rate_day st ev.date) ev.date) ev) with
            prev_date := ev.date,
            prev_adjusted := max (st.outstanding - st.deposit_balance) 0 } := rfl
  refine ⟨applyEvent_emi_closed st ev hty hout, ?_, ?_, ?_, ?_, ?_⟩
  · simp [mkEntry, round2_zero]
  · simp [mkEntry, round2_zero]
  · simp [mkEntry, round2_zero]
  · rw [hstep, happ]; simp
  · rw [hstep, happ]; simp

/-- C5 (witness): the theorem applied to a concrete closed-loan state
(outstanding 0, positive deposit, non-empty pool) and a concrete EMI
event: the pool is untouched by the dispatch step. -/
theorem c5_witness :
    ({ date := { year := 2025, month := 4, day := 1 }, type := "EMI",
        amount := 50 } : LedgerEvent).type = "EMI"
  ∧ sampleClosedState.outstanding ≤ 0
  ∧ (applyEvent sampleClosedState
      { date := { year := 2025, month := 4, day := 1 }, type := "EMI",
        amount := 50 }).accrued_interest = 2 := by
  refine ⟨rfl, by decide, ?_⟩
  have h := (c5_emi_after_closure (1/100) sampleClosedState
    { date := { year := 2025, month := 4, day := 1 }, type := "EMI", amount := 50 }
    rfl (by decide)).1
  rw [h]
  decide

/-- C10: an EMI event processed while the loan is open emits a row
whose interest portion never exceeds the row's amount and whose
principal portion is never negative: `min(pool, amount) ≤ amount`
holds unconditionally, so the clamp can zero the principal portion
but never make it negative, whatever the size of the accrued pool. -/
theorem c10_emi_portion_bounds (rate_day : ℚ) (st : ProcState) (ev : LedgerEvent)
    (hty : ev.type = "EMI") (hout : 0 < st.outstanding) :
    ∃ row, (processStep rate_day st ev).ledger = st.ledger ++ [row]
      ∧ row.interest ≤ row.amount
      ∧ 0 ≤ row.principal := by
  have hL := processStep_emi_open_ledger rate_day st ev hty hout
  have hmin := min_le_right ((accrue rate_day st ev.date).accrued_interest) ev.amount
  refine ⟨_, hL, ?_, ?_⟩
  · show round2 (min ((accrue rate_day st ev.date).accrued_interest) ev.amount)
        ≤ round2 ev.amount
    exact round2_mono hmin
  · show (0:ℚ) ≤ round2
        (ev.amount - min ((accrue rate_day st ev.date).accrued_interest) ev.amount)
    exact round2_nonneg (by linarith)

/-- C10 (witness): the theorem applied to a concrete open-loan state
and EMI event. -/
theorem c10_witness :
    ({ date := { year := 2025, month := 2, day := 1 }, type := "EMI",
        amount := 50 } : LedgerEvent).type = "EMI"
  ∧ (0:ℚ) < sampleState.outstanding
  ∧ ∃ row, (processStep (1/100) sampleState
        { date := { year := 2025, month := 2, day := 1 }, type := "EMI",
          amount := 50 }).ledger = sampleState.ledger ++ [row]
      ∧ row.interest ≤ row.amount
      ∧ 0 ≤ row.principal :=
  ⟨rfl, by decide,
    c10_emi_portion_bounds (1/100) sampleState
      { date := { year := 2025, month := 2, day := 1 }, type := "EMI", amount := 50 }
      rfl (by decide)⟩

/-- C6: across a whole simulation run with non-negative event amounts
(user events and the installment), the outstanding-principal column of
the emitted ledger never increases from one row to the next; and at
step level the outstanding principal never increases — it is unchanged
except by a Pre-Pay (minus the amount) or by an open-loan EMI (minus
the principal portion). -/
theorem c6_outstanding_monotone (principal rate_day emi : ℚ) (tm : ℕ)
    (disb : Date) (userEvents : List LedgerEvent)
    (hu : ∀ e ∈ userEvents, 0 ≤ e.amount) (he : 0 ≤ emi) :
    ((process principal rate_day emi tm disb userEvents).ledger.Pairwise
        (fun a b => b.outstanding ≤ a.outstanding))
  ∧ ∀ (st : ProcState) (ev : LedgerEvent), 0 ≤ ev.amount →
      (processStep rate_day st ev).outstanding ≤ st.outstanding := by
  constructor
  · have hall : ∀ e ∈ sortEvents (buildEvents userEvents disb tm emi), 0 ≤ e.amount := by
      intro e he'
      have hmem : e ∈ buildEvents userEvents disb tm emi :=
        ((List.perm_insertionSort evLE _).mem_iff).mp he'
      unfold buildEvents at hmem
      rcases List.mem_append.mp hmem with h1 | h2
      · rcases List.mem_append.mp h1 with h1a | h1b
        · exact hu e h1a
        · have he0 : e = { date := disb, type := "Start", amount := 0 } :=
            List.mem_singleton.mp h1b
          rw [he0]
      · obtain ⟨i, _, rfl⟩ := List.mem_map.mp h2
        exact he
    exact (foldl_ledger_pairwise rate_day
      (sortEvents (buildEvents userEvents disb tm emi)) _ hall
      (by simp [initialState]) (by simp [initialState])).1
  · intro st ev hev
    exact processStep_outstanding_le rate_day st ev hev

/-- C6 (witness): the theorem applied to a concrete run (principal
100, a Pre-Pay of 100 the next day, one EMI of 50 a month later). -/
theorem c6_witness :
    (∀ e ∈ ([{ date := { year := 2025, month := 1, day := 2 }, type := "Pre-Pay", amount := 100 }] : List LedgerEvent), 0 ≤ e.amount)
  ∧ (0:ℚ) ≤ 50
  ∧ (process 100 (1/100) 50 1 { year := 2025, month := 1, day := 1 }
      [{ date := { year := 2025, month := 1, day := 2 }, type := "Pre-Pay", amount := 100 }]).ledger.Pairwise
        (fun a b => b.outstanding ≤ a.outstanding) :=
  ⟨by decide, by decide,
    (c6_outstanding_monotone 100 (1/100) 50 1 { year := 2025, month := 1, day := 1 }
      [{ date := { year := 2025, month := 1, day := 2 }, type := "Pre-Pay", amount := 100 }] (by decide) (by decide)).1⟩

/-- The row count of a full run: one row per event whose tag has a
dispatch branch; the initial ledger is empty and the sort permutes the
built event list. -/
theorem process_row_count (principal rate_day emi : ℚ) (tm : ℕ) (disb : Date)
    (userEvents : List LedgerEvent) (hu : ∀ e ∈ userEvents, emitsRow e) :
    ((process principal rate_day emi tm disb userEvents).ledger).length
      = userEvents.length + tm := by
  unfold process
  rw [foldl_ledger_length]
  unfold sortEvents
  rw [(List.perm_insertionSort evLE (buildEvents userEvents disb tm emi)).countP_eq]
  rw [countP_buildEvents userEvents disb tm emi hu]
  simp [initialState]

/-- C7 (counterexample): with tenure 1/12 of a year (tenureMonths =
floor(1) = 1) and no user events, the run emits exactly 1 row (the
single EMI row): the Start event emits no row, so the claimed count
1 (Start) + tenureMonths + #userEvents = 2 is off by one. -/
theorem c7_counterexample :
    ((OverdraftLedger.simulate
        { principal := 1000, annual_rate := 10, tenure_years := 1/12,
          disbursement_date := { year := 2025, month := 1, day := 1 } }
        100 []).ledger).length = 1
  ∧ (1 : ℕ) ≠ 1 + 1 + 0 := by
  constructor
  · decide
  · decide

/-- C7 (amended): in a UI/test-mode run, the number of emitted rows is
`tenureMonths + #userEvents` where `tenureMonths = floor(tenureYears ×
12)`: exactly one row per processed event except the Start event,
which emits none (there is no Start dispatch branch). -/
theorem c7_row_count (L : OverdraftLedger) (emi : ℚ)
    (userEvents : List LedgerEvent) (hty : 0 < L.tenure_years)
    (hu : ∀ e ∈ userEvents,
        e.type = "Deposit" ∨ e.type = "Withdraw" ∨ e.type = "Pre-Pay") :
    ((L.simulate emi userEvents).ledger).length
      = (⌊L.tenure_years * 12⌋).toNat + userEvents.length := by
  have hu' : ∀ e ∈ userEvents, emitsRow e := by
    intro e he
    rcases hu e he with h | h | h
    · exact Or.inl h
    · exact Or.inr (Or.inl h)
    · exact Or.inr (Or.inr (Or.inl h))
  unfold OverdraftLedger.simulate
  rw [process_row_count _ _ _ _ _ _ hu', tenure_months_eq_floor L hty]
  omega

/-- C7 (witness): a one-year tenure with no user events gives 12 rows. -/
theorem c7_witness :
    (0:ℚ) < 1
  ∧ (∀ e ∈ ([] : List LedgerEvent),
      e.type = "Deposit" ∨ e.type = "Withdraw" ∨ e.type = "Pre-Pay")
  ∧ ((OverdraftLedger.simulate
      { principal := 1000, annual_rate := 10, tenure_years := 1,
        disbursement_date := { year := 2025, month := 1, day := 1 } }
      100 []).ledger).length = 12 := by
  refine ⟨by norm_num, by simp, ?_⟩
  have h := c7_row_count
    { principal := 1000, annual_rate := 10, tenure_years := 1,
      disbursement_date := { year := 2025, month := 1, day := 1 } }
    100 [] (by norm_num) (by simp)
  rw [h]
  decide

/-- C8: constructing the ledger fails (the source's `ValueError`,
modelled as `Except.error`) exactly when the principal, the annual
rate or the tenure is non-positive, or when the EMI denominator
`(1+r)^n - 1` is zero; and a successful construction carries an empty
ledger, so no rows exist before `process` runs — an error therefore
precedes any simulation step. -/
theorem c8_init_validation (p r : ℚ) (n : ℕ) (d : Date) :
    ((∃ e, initLedger p r n d = Except.error e)
        ↔ (p ≤ 0 ∨ r ≤ 0 ∨ (n : ℚ) ≤ 0 ∨ (1 + r/100)^n - 1 = 0))
  ∧ ∀ cfg, initLedger p r n d = Except.ok cfg → cfg.ledger = [] := by
  unfold initLedger
  by_cases hp : p ≤ 0
  · rw [if_pos hp]
    exact ⟨⟨fun _ => Or.inl hp, fun _ => ⟨_, rfl⟩⟩,
      fun cfg hcfg => Except.noConfusion hcfg⟩
  · rw [if_neg hp]
    by_cases hr : r ≤ 0
    · rw [if_pos hr]
      exact ⟨⟨fun _ => Or.inr (Or.inl hr), fun _ => ⟨_, rfl⟩⟩,
        fun cfg hcfg => Except.noConfusion hcfg⟩
    · rw [if_neg hr]
      by_cases hn : (n : ℚ) ≤ 0
      · rw [if_pos hn]
        exact ⟨⟨fun _ => Or.inr (Or.inr (Or.inl hn)), fun _ => ⟨_, rfl⟩⟩,
          fun cfg hcfg => Except.noConfusion hcfg⟩
      · rw [if_neg hn]
        have hcond : ¬ (r/100 ≤ 0 ∨ (n : ℚ) ≤ 0) := by
          push_neg
          exact ⟨div_pos (lt_of_not_le hr) (by norm_num), lt_of_not_le hn⟩
        by_cases hd : (1 + r/100)^n - 1 = 0
        · have hce : compute_emi p r n
              = Except.error "Invalid EMI denominator calculation." := by
            unfold compute_emi
            rw [if_neg hcond, if_pos hd]
          rw [hce]
          exact ⟨⟨fun _ => Or.inr (Or.inr (Or.inr hd)), fun _ => ⟨_, rfl⟩⟩,
            fun cfg hcfg => Except.noConfusion hcfg⟩
        · have hce : compute_emi p r n
              = Except.ok (round2 (p * (r/100) * (1 + r/100)^n
                  / ((1 + r/100)^n - 1) / 12)) := by
            unfold compute_emi
            rw [if_neg hcond, if_neg hd]
          rw [hce]
          refine ⟨⟨?_, ?_⟩, ?_⟩
          · rintro ⟨e, he⟩
            exact Except.noConfusion he
          · rintro (h | h | h | h)
            · exact absurd h hp
            · exact absurd h hr
            · exact absurd h hn
            · exact absurd h hd
          · intro cfg hcfg
            injection hcfg with h
            rw [← h]

/-- C9 (counterexample): principal 100, a Pre-Pay of 100 on
02-01-2025 (one day after disbursement), one EMI a month later.  The
first row whose outstanding-after is ≤ 0 is the Pre-Pay row dated
02-01-2025, but the loan-closure notification fires only while
processing the NEXT event, the EMI of 01-02-2025 — the closure check
runs before an event is applied, so it sees the closure one event
late.  The notification is therefore not at the first closed row. -/
theorem c9_counterexample :
    (process 100 (1/100) 50 1 { year := 2025, month := 1, day := 1 }
        [{ date := { year := 2025, month := 1, day := 2 }, type := "Pre-Pay", amount := 100 }]).closure_notices
      = [{ year := 2025, month := 2, day := 1 }]
  ∧ (process 100 (1/100) 50 1 { year := 2025, month := 1, day := 1 }
        [{ date := { year := 2025, month := 1, day := 2 }, type := "Pre-Pay", amount := 100 }]).ledger.map
      (fun row => (row.date, row.outstanding))
      = [({ year := 2025, month := 1, day := 2 }, 0),
         ({ year := 2025, month := 2, day := 1 }, 0)]
  ∧ ({ year := 2025, month := 2, day := 1 } : Date)
      ≠ { year := 2025, month := 1, day := 2 } := by
  refine ⟨by decide, by decide, by decide⟩

/-- C9 (amended): the loan-closure notification fires while
processing the first event whose pre-event outstanding principal is
≤ 0 — that is, at the event AFTER the first row whose
outstanding-after is ≤ 0 (and never, if that row is the last event).
Precisely: across one step the flag ends true exactly if it was
already true or the pre-step outstanding was ≤ 0; a notification date
is appended exactly when the pre-step outstanding was ≤ 0 with the
flag still unset; and over any run at most one notification is ever
added (none if the flag is already set), so it never re-fires. -/
theorem c9_closure_notification (rate_day : ℚ) :
    (∀ (st : ProcState) (ev : LedgerEvent),
        ((processStep rate_day st ev).loan_closure_flag = true
          ↔ (st.loan_closure_flag = true ∨ st.outstanding ≤ 0)))
  ∧ (∀ (st : ProcState) (ev : LedgerEvent),
        (processStep rate_day st ev).closure_notices
          = if st.outstanding ≤ 0 ∧ st.loan_closure_flag = false
            then st.closure_notices ++ [ev.date] else st.closure_notices)
  ∧ ∀ (evs : List LedgerEvent) (st : ProcState),
        ((evs.foldl (processStep rate_day) st).closure_notices).length
          ≤ st.closure_notices.length
              + (if st.loan_closure_flag = false then 1 else 0) :=
  ⟨fun st ev => processStep_flag_iff rate_day st ev,
   fun st ev => processStep_closure_notices rate_day st ev,
   fun evs st => foldl_closure_notices_bound rate_day evs st⟩
